import Mathlib

/-
Verification of the task-runner core (src/task.go).

The file embeds the task resolution and execution engine: `RunTask` with its
process-wide visited set (`runTasks` in the Go source), the freshness check
`isTaskUpToDate`, the sequential command loop with output capture (`Set`),
and placeholder substitution (`ReplaceVariables`).

Effects are made explicit:
  - the filesystem (glob expansion and modification times) is an abstract
    `FS` record;
  - command execution (`runCommand` in the Go source) is an abstract
    `World.exec` function returning captured stdout or an error;
  - the process environment and the visited set are threaded through an
    explicit `RunState`, together with a `trace` of visit/exec events that
    records what the run did in which order.

`RunTask` takes a fuel parameter because its recursion through the
dependency lists is not structural; every theorem quantifies over fuel or
is supplied with enough fuel at the concrete inputs.
-/

namespace TaskRun

/-- Abstract filesystem interface: glob expansion of one pattern (list of
matched file paths, or a glob error) and the modification time of a file. -/
structure FS where
  glob : String → Except String (List String)
  modTime : String → Nat

/-- Modelled from the spec: helper used by the missing `getPatternsMaxTime`
and `getPatternsMinTime` of the Go repository; expands a list of glob
patterns into the concatenated list of matched files, failing on the first
glob error. -/
def globAll (fs : FS) : List String → Except String (List String)
  | [] => Except.ok []
  | p :: ps =>
    match fs.glob p with
    | Except.error e => Except.error e
    | Except.ok files =>
      match globAll fs ps with
      | Except.error e => Except.error e
      | Except.ok rest => Except.ok (files ++ rest)

/-- Modelled from the spec: `getPatternsMaxTime` is not under src/; per the
spec it expands the patterns and computes the maximum modification time
among the matched files; `none` plays the role of the zero `time.Time`
returned when no file matches. -/
def getPatternsMaxTime (fs : FS) (patterns : List String) :
    Except String (Option Nat) :=
  match globAll fs patterns with
  | Except.error e => Except.error e
  | Except.ok [] => Except.ok none
  | Except.ok (f :: rest) =>
    Except.ok (some (rest.foldl (fun m g => max m (fs.modTime g)) (fs.modTime f)))

/-- Modelled from the spec: `getPatternsMinTime` is not under src/; per the
spec it expands the patterns and computes the minimum modification time
among the matched files; `none` plays the role of the zero `time.Time`
returned when no file matches. -/
def getPatternsMinTime (fs : FS) (patterns : List String) :
    Except String (Option Nat) :=
  match globAll fs patterns with
  | Except.error e => Except.error e
  | Except.ok [] => Except.ok none
  | Except.ok (f :: rest) =>
    Except.ok (some (rest.foldl (fun m g => min m (fs.modTime g)) (fs.modTime f)))

/-- The `Task` struct of src/task.go. `Variables` is the decoded
`map[string]string` as an association list; `Set` is the capture-variable
name (empty string means unset), `Dir` the working-directory template. -/
structure Task where
  Cmds : List String
  Deps : List String
  Sources : List String
  Generates : List String
  Dir : String
  Variables : List (String × String)
  Set : String
  deriving DecidableEq

/-- `isTaskUpToDate` of src/task.go lines 135-151: false when either
pattern list is empty, when a glob fails or matches nothing (the `IsZero`
checks), and otherwise true iff the minimum generated time is strictly
after the maximum source time. -/
def isTaskUpToDate (fs : FS) (t : Task) : Bool :=
  if t.Sources.length = 0 ∨ t.Generates.length = 0 then false
  else
    match getPatternsMaxTime fs t.Sources with
    | Except.error _ => false
    | Except.ok none => false
    | Except.ok (some sourcesMaxTime) =>
      match getPatternsMinTime fs t.Generates with
      | Except.error _ => false
      | Except.ok none => false
      | Except.ok (some generatesMinTime) =>
        decide (sourcesMaxTime < generatesMinTime)

/-- Modelled from the spec: lookup used by substitution; a variable name is
first looked up among the task-static variables and then among the
process-exported variables, as §4.1 of the spec prescribes. -/
def lookupVar (vars env : List (String × String)) (k : String) : Option String :=
  match vars.lookup k with
  | some v => some v
  | none => env.lookup k

/-- Modelled from the spec: scanner for the characters of a placeholder
name, reading up to the first closing brace pair and returning the name
characters and the remainder; `none` when no closing pair exists. -/
def takePlaceholder : List Char → Option (List Char × List Char)
  | [] => none
  | c :: rest =>
    if c = '}' ∧ rest.head? = some '}' then some ([], rest.tail)
    else
      match takePlaceholder rest with
      | some (nm, rest') => some (c :: nm, rest')
      | none => none

/-- Modelled from the spec: single left-to-right pass replacing each
placeholder token by its value; an unresolved placeholder is left verbatim
and no re-expansion of substituted values happens. The fuel is always
called with the length of the character list, which suffices because every
step consumes at least one character. -/
def substChars (vars env : List (String × String)) : Nat → List Char → List Char
  | 0, cs => cs
  | _ + 1, [] => []
  | fuel + 1, '{' :: '{' :: rest =>
    match takePlaceholder rest with
    | some (nm, rest') =>
      match lookupVar vars env (String.mk nm) with
      | some v => v.data ++ substChars vars env fuel rest'
      | none => '{' :: '{' :: (nm ++ '}' :: '}' :: substChars vars env fuel rest')
    | none => '{' :: '{' :: substChars vars env fuel rest
  | fuel + 1, c :: cs => c :: substChars vars env fuel cs

/-- Modelled from the spec: `ReplaceVariables` is not under src/; per §4.1
it replaces every placeholder of the form given by `placeholder` with the
variable's value, checking task-static variables first and falling back to
the process-exported variables, leaving unresolved placeholders verbatim. -/
def ReplaceVariables (s : String) (vars env : List (String × String)) : String :=
  String.mk (substChars vars env s.data.length s.data)

/-- The placeholder token for a variable name, two opening braces then the
name then two closing braces. -/
def placeholder (name : String) : String :=
  String.mk ('{' :: '{' :: name.data ++ '}' :: '}' :: [])

/-- Modelled from the spec: `handleVariables` is not under src/; per §4.1
variable resolution starts from the task's static variables and overlays
nothing else, has no side effects, and (in this model) cannot fail; the
`Except` shape mirrors the Go call sites, which check an error. -/
def handleVariables (t : Task) : Except String (List (String × String)) :=
  Except.ok t.Variables

/-- Observable events of a run: a task name being marked visited, and a
(substituted) command string being executed successfully. -/
inductive Event where
  | visit (name : String)
  | exec (cmd : String)
  deriving DecidableEq

/-- The mutable process-wide state of src/task.go: the `runTasks` visited
set, the process environment written by `os.Setenv`, and the event trace. -/
structure RunState where
  runTasks : List String
  env : List (String × String)
  trace : List Event
  deriving DecidableEq

/-- The empty initial state of a fresh process. -/
def st0 : RunState := RunState.mk [] [] []

/-- Marking a name visited: `runTasks[name] = true` in the Go source,
recorded in the trace as a visit event. -/
def markVisited (name : String) (st : RunState) : RunState :=
  RunState.mk (name :: st.runTasks) st.env (st.trace ++ [Event.visit name])

/-- Recording a successfully executed (already substituted) command. -/
def addExec (c : String) (st : RunState) : RunState :=
  RunState.mk st.runTasks st.env (st.trace ++ [Event.exec c])

/-- `os.Setenv`: the process environment with one variable bound. -/
def setEnvVar (k v : String) (st : RunState) : RunState :=
  RunState.mk st.runTasks ((k, v) :: st.env) st.trace

/-- Errors of src/task.go: `taskNotFoundError` and `taskRunError`; the
cause of a `taskRunError` is kept as its message string. -/
inductive TaskError where
  | taskNotFound (name : String)
  | taskRunError (name : String) (cause : String)
  deriving DecidableEq

/-- The message of the error built at line 92 of src/task.go. -/
def cyclicDepMsg : String := "Cyclic dependency detected"

/-- The abstract collaborators of the runner: the filesystem and the
command executor (`runCommand` of src/task.go, abstracted per §4.3 of the
spec into captured stdout or an execution error, as a function of the
substituted command string and working directory). -/
structure World where
  fs : FS
  exec : String → String → Except String String

/-- The command loop of `RunTask` (src/task.go lines 114-131): for each
command template re-resolve the variables, substitute the command and the
working directory, execute; on failure wrap the cause as a
`taskRunError` with the owning task's name and stop; on success record the
execution and, when `Set` is non-empty, export the captured output. -/
def runCmds (w : World) (name : String) (t : Task) :
    List String → RunState → Option (Except TaskError Unit × RunState)
  | [], st => some (Except.ok (), st)
  | c :: cs, st =>
    match handleVariables t with
    | Except.error e => some (Except.error (TaskError.taskRunError name e), st)
    | Except.ok vars =>
      match w.exec (ReplaceVariables c vars st.env) (ReplaceVariables t.Dir vars st.env) with
      | Except.error e => some (Except.error (TaskError.taskRunError name e), st)
      | Except.ok output =>
        runCmds w name t cs
          (if t.Set = "" then addExec (ReplaceVariables c vars st.env) st
           else setEnvVar t.Set output (addExec (ReplaceVariables c vars st.env) st))

/-- The dependency loop of `RunTask` (src/task.go lines 109-113): each
dependency template is substituted through the variables and run; the
first failure is returned unchanged and stops the loop. -/
def runDepsWith (run : String → RunState → Option (Except TaskError Unit × RunState)) :
    List String → List (String × String) → RunState →
    Option (Except TaskError Unit × RunState)
  | [], _, st => some (Except.ok (), st)
  | d :: ds, vars, st =>
    match run (ReplaceVariables d vars st.env) st with
    | none => none
    | some (Except.error e, st') => some (Except.error e, st')
    | some (Except.ok _, st') => runDepsWith run ds vars st'

/-- `RunTask` of src/task.go lines 90-133, with fuel for the recursion
(`none` = fuel exhausted, which never happens at sufficient fuel): cycle
check against the visited set, marking, registry lookup, freshness check,
variable resolution, the dependency loop, then the command loop. -/
def RunTask (w : World) (Tasks : List (String × Task)) :
    Nat → String → RunState → Option (Except TaskError Unit × RunState)
  | 0, _, _ => none
  | fuel + 1, name, st =>
    if name ∈ st.runTasks then
      some (Except.error (TaskError.taskRunError name cyclicDepMsg), st)
    else
      match Tasks.lookup name with
      | none => some (Except.error (TaskError.taskNotFound name), markVisited name st)
      | some t =>
        if isTaskUpToDate w.fs t then
          some (Except.ok (), markVisited name st)
        else
          match handleVariables t with
          | Except.error e =>
            some (Except.error (TaskError.taskRunError name e), markVisited name st)
          | Except.ok vars =>
            match runDepsWith (RunTask w Tasks fuel) t.Deps vars (markVisited name st) with
            | none => none
            | some (Except.error e, st2) => some (Except.error e, st2)
            | some (Except.ok _, st2) => runCmds w name t t.Cmds st2

/-- The names marked visited by a trace, in order. -/
def visitedOf : List Event → List String
  | [] => []
  | Event.visit n :: es => n :: visitedOf es
  | Event.exec _ :: es => visitedOf es

/-- The commands executed by a trace, in order. -/
def execsOf : List Event → List String
  | [] => []
  | Event.visit _ :: es => execsOf es
  | Event.exec c :: es => c :: execsOf es

/-- A task with commands and dependencies only (no sources, generates,
directory, variables or capture name), for concrete registries. -/
def mkTask (cmds deps : List String) : Task :=
  Task.mk cmds deps [] [] "" [] ""

/-- A world whose globs match nothing and whose commands all succeed with
empty output. -/
def wTriv : World :=
  World.mk (FS.mk (fun _ => Except.ok []) (fun _ => 0)) (fun _ _ => Except.ok "")

/-- A cycle-free diamond registry: A depends on B and C, which both depend
on D. -/
def diamondReg : List (String × Task) :=
  [("A", mkTask [] ["B", "C"]), ("B", mkTask [] ["D"]),
   ("C", mkTask [] ["D"]), ("D", mkTask ["d"] [])]

/-- The two-task cyclic registry of the spec's cycle-detection scenario. -/
def cycleReg : List (String × Task) :=
  [("A", mkTask [] ["B"]), ("B", mkTask [] ["A"])]

/-- A task capturing each command's output into the variable RESULT; its
second command references the captured value through a placeholder. -/
def setTask : Task :=
  Task.mk ["echo 42", "use " ++ placeholder "RESULT"] [] [] [] "" [] "RESULT"

/-- Registry holding only `setTask`. -/
def setReg : List (String × Task) := [("t", setTask)]

/-- A world for the capture scenario: `echo 42` outputs 42, and the second
command succeeds only in its substituted form `use 42`. -/
def wSet : World :=
  World.mk (FS.mk (fun _ => Except.ok []) (fun _ => 0))
    (fun c _ =>
      if c = "echo 42" then Except.ok "42"
      else if c = "use 42" then Except.ok "ok"
      else Except.error "command failed")

/-- A filesystem where every pattern matches exactly its own name as a
file, `g` has modification time 2 and every other file time 1. -/
def fsFresh : FS :=
  FS.mk (fun p => Except.ok [p]) (fun f => if f = "g" then 2 else 1)

/-- A world over `fsFresh` whose executor always fails, so that a skipped
task is observably never executing anything. -/
def wFresh : World :=
  World.mk fsFresh (fun _ _ => Except.error "must not run")

/-- A task with source `s` and generated file `g`, up to date in
`fsFresh` since 1 < 2. -/
def freshTask : Task :=
  Task.mk ["c"] [] ["s"] ["g"] "" [] ""

/-- A world whose commands all fail with cause `boom`. -/
def wBoom : World :=
  World.mk (FS.mk (fun _ => Except.ok []) (fun _ => 0)) (fun _ _ => Except.error "boom")

/-- A registry where P depends on the missing task Q. -/
def regPQ : List (String × Task) := [("P", mkTask [] ["Q"])]

/-- A registry with the single dependency-free, command-free task A. -/
def regA : List (String × Task) := [("A", mkTask [] [])]

/-- A task with a dependency, a capture variable and two commands, for
observing command ordering with both features present. -/
def topTask : Task := Task.mk ["c1", "c2"] ["leaf"] [] [] "" [] "S"

/-- Registry holding `topTask` and its dependency. -/
def regTop : List (String × Task) := [("top", topTask), ("leaf", mkTask [] [])]

/-- How one run step may change the state: the trace is extended by a
suffix whose visits are exactly the names pushed onto the visited set, no
name is visited twice in the suffix, and only unvisited names are pushed.
Every piece of the runner satisfies this relation, which is what makes
the visited set grow monotonically and every name be visited at most once
per process run. -/
def TraceStep (st st' : RunState) : Prop :=
  ∃ d : List Event,
    st'.trace = st.trace ++ d ∧
    st'.runTasks = (visitedOf d).reverse ++ st.runTasks ∧
    (visitedOf d).Nodup ∧
    ∀ n ∈ visitedOf d, n ∉ st.runTasks

lemma runTask_visited {w : World} {Tasks : List (String × Task)} {fuel : Nat}
    {name : String} {st : RunState} (h : name ∈ st.runTasks) :
    RunTask w Tasks (fuel + 1) name st
      = some (Except.error (TaskError.taskRunError name cyclicDepMsg), st) := by
  simp [RunTask, h]

lemma runTask_succ {w : World} {Tasks : List (String × Task)} {fuel : Nat}
    {name : String} {st : RunState} (h : name ∉ st.runTasks) :
    RunTask w Tasks (fuel + 1) name st =
      match Tasks.lookup name with
      | none => some (Except.error (TaskError.taskNotFound name), markVisited name st)
      | some t =>
        if isTaskUpToDate w.fs t then some (Except.ok (), markVisited name st)
        else
          match runDepsWith (RunTask w Tasks fuel) t.Deps t.Variables (markVisited name st) with
          | none => none
          | some (Except.error e, st2) => some (Except.error e, st2)
          | some (Except.ok _, st2) => runCmds w name t t.Cmds st2 := by
  simp [RunTask, h, handleVariables]

lemma runTask_notFound {w : World} {Tasks : List (String × Task)} {fuel : Nat}
    {name : String} {st : RunState} (h : name ∉ st.runTasks)
    (hl : Tasks.lookup name = none) :
    RunTask w Tasks (fuel + 1) name st
      = some (Except.error (TaskError.taskNotFound name), markVisited name st) := by
  rw [runTask_succ h, hl]

lemma runTask_upToDate {w : World} {Tasks : List (String × Task)} {fuel : Nat}
    {name : String} {st : RunState} {t : Task} (h : name ∉ st.runTasks)
    (hl : Tasks.lookup name = some t) (hu : isTaskUpToDate w.fs t = true) :
    RunTask w Tasks (fuel + 1) name st = some (Except.ok (), markVisited name st) := by
  rw [runTask_succ h, hl]
  simp [hu]

lemma runTask_stale {w : World} {Tasks : List (String × Task)} {fuel : Nat}
    {name : String} {st : RunState} {t : Task} (h : name ∉ st.runTasks)
    (hl : Tasks.lookup name = some t) (hu : isTaskUpToDate w.fs t = false) :
    RunTask w Tasks (fuel + 1) name st =
      match runDepsWith (RunTask w Tasks fuel) t.Deps t.Variables (markVisited name st) with
      | none => none
      | some (Except.error e, st2) => some (Except.error e, st2)
      | some (Except.ok _, st2) => runCmds w name t t.Cmds st2 := by
  rw [runTask_succ h, hl]
  simp [hu]

/-- C2: a task name already marked visited makes `RunTask` fail with the
cyclic-dependency error immediately, with the state (hence the registry
lookup and the execution trace) untouched; and in the registry where A
depends on B and B depends on A, running A yields the cyclic-dependency
error with no command executed. -/
theorem runTask_cyclic_on_visited :
    (∀ (w : World) (Tasks : List (String × Task)) (fuel : Nat) (name : String)
        (st : RunState), name ∈ st.runTasks →
        RunTask w Tasks (fuel + 1) name st
          = some (Except.error (TaskError.taskRunError name cyclicDepMsg), st))
    ∧ (∀ w : World,
        (RunTask w cycleReg 3 "A" st0).map (fun p => (p.1, execsOf p.2.trace))
          = some (Except.error (TaskError.taskRunError "A" cyclicDepMsg), [])) :=
  And.intro (fun _ _ _ _ _ h => runTask_visited h) (fun _ => rfl)

/-- Closed instance of C2's general statement at a concrete visited name. -/
theorem runTask_cyclic_on_visited_witness :
    RunTask wTriv cycleReg 1 "A" (RunState.mk ["A"] [] [])
      = some (Except.error (TaskError.taskRunError "A" cyclicDepMsg),
              RunState.mk ["A"] [] []) :=
  runTask_cyclic_on_visited.1 wTriv cycleReg 0 "A" (RunState.mk ["A"] [] []) (by decide)

/-- C4: an up-to-date task returns success right after being marked
visited: the resulting state records only the visit, so no dependency was
run, no command was executed and the environment is unchanged. -/
theorem runTask_up_to_date_skips :
    ∀ (w : World) (Tasks : List (String × Task)) (fuel : Nat) (name : String)
      (st : RunState) (t : Task), name ∉ st.runTasks →
      Tasks.lookup name = some t → isTaskUpToDate w.fs t = true →
      RunTask w Tasks (fuel + 1) name st = some (Except.ok (), markVisited name st) :=
  fun _ _ _ _ _ _ h hl hu => runTask_upToDate h hl hu

/-- Closed instance of C4 at a concrete up-to-date task. -/
theorem runTask_up_to_date_skips_witness :
    RunTask wFresh [("F", freshTask)] 1 "F" st0
      = some (Except.ok (), markVisited "F" st0) :=
  runTask_up_to_date_skips wFresh [("F", freshTask)] 0 "F" st0 freshTask
    (by decide) (by decide) (by decide)

/-- C10: a missing task name is marked visited before the not-found error
is returned, so the first call on it fails with the task-not-found error
and every later call on the same name in the same process state fails with
the cyclic-dependency error instead. -/
theorem runTask_missing_then_cyclic :
    ∀ (w : World) (Tasks : List (String × Task)) (fuel : Nat) (name : String)
      (st : RunState), name ∉ st.runTasks → Tasks.lookup name = none →
      RunTask w Tasks (fuel + 1) name st
        = some (Except.error (TaskError.taskNotFound name), markVisited name st)
      ∧ ∀ fuel' : Nat,
          RunTask w Tasks (fuel' + 1) name (markVisited name st)
            = some (Except.error (TaskError.taskRunError name cyclicDepMsg),
                    markVisited name st) :=
  fun _ _ _ name st h hl =>
    And.intro (runTask_notFound h hl)
      (fun _ => runTask_visited (List.mem_cons_self name st.runTasks))

/-- Closed instance of C10 at the registry with only the missing name Q. -/
theorem runTask_missing_then_cyclic_witness :
    RunTask wTriv regPQ 1 "Q" st0
      = some (Except.error (TaskError.taskNotFound "Q"), markVisited "Q" st0)
    ∧ RunTask wTriv regPQ 1 "Q" (markVisited "Q" st0)
      = some (Except.error (TaskError.taskRunError "Q" cyclicDepMsg),
              markVisited "Q" st0) :=
  And.intro (runTask_missing_then_cyclic wTriv regPQ 0 "Q" st0 (by decide) (by decide)).1
    ((runTask_missing_then_cyclic wTriv regPQ 0 "Q" st0 (by decide) (by decide)).2 0)

/-- C5: the first failing dependency stops the dependency loop with the
dependency's error returned unchanged; a succeeding dependency hands its
state to the rest of the loop; and a dependency-stage error becomes the
result of `RunTask` itself, unchanged, so no command of the task runs. -/
theorem runTask_dep_failure_aborts :
    (∀ (run : String → RunState → Option (Except TaskError Unit × RunState))
        (d : String) (ds : List String) (vars : List (String × String))
        (st : RunState) (e : TaskError) (st' : RunState),
        run (ReplaceVariables d vars st.env) st = some (Except.error e, st') →
        runDepsWith run (d :: ds) vars st = some (Except.error e, st'))
    ∧ (∀ (run : String → RunState → Option (Except TaskError Unit × RunState))
        (d : String) (ds : List String) (vars : List (String × String))
        (st st1 : RunState),
        run (ReplaceVariables d vars st.env) st = some (Except.ok (), st1) →
        runDepsWith run (d :: ds) vars st = runDepsWith run ds vars st1)
    ∧ (∀ (w : World) (Tasks : List (String × Task)) (fuel : Nat) (name : String)
        (st : RunState) (t : Task) (e : TaskError) (st2 : RunState),
        name ∉ st.runTasks → Tasks.lookup name = some t →
        isTaskUpToDate w.fs t = false →
        runDepsWith (RunTask w Tasks fuel) t.Deps t.Variables (markVisited name st)
          = some (Except.error e, st2) →
        RunTask w Tasks (fuel + 1) name st = some (Except.error e, st2)) := by
  refine ⟨?_, ?_, ?_⟩
  · intro run d ds vars st e st' h
    simp [runDepsWith, h]
  · intro run d ds vars st st1 h
    simp [runDepsWith, h]
  · intro w Tasks fuel name st t e st2 h hl hu hd
    rw [runTask_stale h hl hu, hd]

/-- Closed instance of C5: task P's missing dependency Q aborts P with the
unchanged task-not-found error of Q. -/
theorem runTask_dep_failure_aborts_witness :
    RunTask wTriv regPQ 2 "P" st0
      = some (Except.error (TaskError.taskNotFound "Q"),
              markVisited "Q" (markVisited "P" st0)) :=
  runTask_dep_failure_aborts.2.2 wTriv regPQ 1 "P" st0 (mkTask [] ["Q"])
    (TaskError.taskNotFound "Q") (markVisited "Q" (markVisited "P" st0))
    (by decide) rfl rfl rfl

/-- C6: a failing command makes the command loop stop with the cause
wrapped as a task-run error carrying the owning task's name and the state
untouched, so no remaining command of the task executes; and the command
loop's result is the result of `RunTask` once the dependencies succeeded. -/
theorem runTask_command_failure_wraps :
    (∀ (w : World) (name : String) (t : Task) (c : String) (cs : List String)
        (st : RunState) (e : String),
        w.exec (ReplaceVariables c t.Variables st.env)
            (ReplaceVariables t.Dir t.Variables st.env) = Except.error e →
        runCmds w name t (c :: cs) st
          = some (Except.error (TaskError.taskRunError name e), st))
    ∧ (∀ (w : World) (Tasks : List (String × Task)) (fuel : Nat) (name : String)
        (st : RunState) (t : Task) (r : Except TaskError Unit) (st2 st3 : RunState),
        name ∉ st.runTasks → Tasks.lookup name = some t →
        isTaskUpToDate w.fs t = false →
        runDepsWith (RunTask w Tasks fuel) t.Deps t.Variables (markVisited name st)
          = some (Except.ok (), st2) →
        runCmds w name t t.Cmds st2 = some (r, st3) →
        RunTask w Tasks (fuel + 1) name st = some (r, st3)) := by
  constructor
  · intro w name t c cs st e h
    simp [runCmds, handleVariables, h]
  · intro w Tasks fuel name st t r st2 st3 h hl hu hd hc
    rw [runTask_stale h hl hu, hd]
    exact hc

/-- Closed instance of C6: a failing command wraps its cause with the
owning task's name. -/
theorem runTask_command_failure_wraps_witness :
    runCmds wBoom "T" (mkTask ["x"] []) ["x"] st0
      = some (Except.error (TaskError.taskRunError "T" "boom"), st0) :=
  runTask_command_failure_wraps.1 wBoom "T" (mkTask ["x"] []) "x" [] st0 "boom" rfl

/-- C9: when the capture name is set, a succeeding command exports its
captured output under that name into the process environment before the
remaining commands run; and in the capture scenario the exported value 42
is what the second command's placeholder resolves to. -/
theorem capture_variable_exported :
    (∀ (w : World) (name : String) (t : Task) (c : String) (cs : List String)
        (st : RunState) (output : String), ¬ t.Set = "" →
        w.exec (ReplaceVariables c t.Variables st.env)
            (ReplaceVariables t.Dir t.Variables st.env) = Except.ok output →
        runCmds w name t (c :: cs) st
          = runCmds w name t cs
              (setEnvVar t.Set output
                (addExec (ReplaceVariables c t.Variables st.env) st)))
    ∧ (RunTask wSet setReg 2 "t" st0).map (fun p => (p.1, p.2.env, execsOf p.2.trace))
        = some (Except.ok (), [("RESULT", "ok"), ("RESULT", "42")],
                ["echo 42", "use 42"]) := by
  constructor
  · intro w name t c cs st output hset hexec
    simp [runCmds, handleVariables, hexec, hset]
  · rfl

/-- Closed instance of C9's general statement on the capture task. -/
theorem capture_variable_exported_witness :
    runCmds wSet "t" setTask setTask.Cmds st0
      = runCmds wSet "t" setTask ["use " ++ placeholder "RESULT"]
          (setEnvVar "RESULT" "42" (addExec "echo 42" st0)) :=
  capture_variable_exported.1 wSet "t" setTask "echo 42"
    ["use " ++ placeholder "RESULT"] st0 "42" (by decide) rfl

lemma takePlaceholder_closes (ns rest : List Char) (h : ∀ ch ∈ ns, ch ≠ '}') :
    takePlaceholder (ns ++ '}' :: '}' :: rest) = some (ns, rest) := by
  induction ns with
  | nil => simp [takePlaceholder]
  | cons c cs ih =>
    have hc : c ≠ '}' := h c (by simp)
    have ih' := ih (fun ch hch => h ch (by simp [hch]))
    simp [takePlaceholder, hc, ih']

lemma substChars_nil (vars env : List (String × String)) (fuel : Nat) :
    substChars vars env fuel [] = [] := by
  cases fuel <;> rfl

lemma substChars_unresolved (vars env : List (String × String)) (nm : List Char)
    (fuel : Nat) (hn : ∀ ch ∈ nm, ch ≠ '}')
    (hl : lookupVar vars env (String.mk nm) = none) :
    substChars vars env (fuel + 1) ('{' :: '{' :: (nm ++ '}' :: '}' :: []))
      = '{' :: '{' :: (nm ++ '}' :: '}' :: []) := by
  have h1 := takePlaceholder_closes nm [] hn
  simp [substChars, h1, hl, substChars_nil]

/-- C8: a placeholder whose variable name resolves neither among the task
variables nor in the environment is left verbatim by substitution, and in
particular the MISSING placeholder substituted through empty mappings is
returned unchanged. -/
theorem replaceVariables_unresolved_verbatim :
    (∀ (name : String) (vars env : List (String × String)),
        (∀ ch ∈ name.data, ch ≠ '}') → lookupVar vars env name = none →
        ReplaceVariables (placeholder name) vars env = placeholder name)
    ∧ ReplaceVariables (placeholder "MISSING") [] [] = placeholder "MISSING" := by
  constructor
  · intro name vars env hn hl
    have hdata : (placeholder name).data
        = '{' :: '{' :: (name.data ++ '}' :: '}' :: []) := rfl
    have hlen : ('{' :: '{' :: (name.data ++ '}' :: '}' :: [])).length
        = (name.data.length + 3) + 1 := by
      simp [List.length_append]
    have hl' : lookupVar vars env (String.mk name.data) = none := hl
    unfold ReplaceVariables
    rw [hdata, hlen,
      substChars_unresolved vars env name.data (name.data.length + 3) hn hl']
    rfl
  · rfl

/-- Closed instance of C8 at an unresolvable placeholder name. -/
theorem replaceVariables_unresolved_verbatim_witness :
    ReplaceVariables (placeholder "FOO") [("BAR", "1")] []
      = placeholder "FOO" :=
  replaceVariables_unresolved_verbatim.1 "FOO" [("BAR", "1")] []
    (by decide) (by decide)

lemma visitedOf_append (a b : List Event) :
    visitedOf (a ++ b) = visitedOf a ++ visitedOf b := by
  induction a with
  | nil => rfl
  | cons e es ih => cases e <;> simp [visitedOf, ih]

lemma traceStep_refl (st : RunState) : TraceStep st st :=
  ⟨[], by simp, by simp [visitedOf], by simp [visitedOf], by simp [visitedOf]⟩

lemma traceStep_trans {s1 s2 s3 : RunState} (h12 : TraceStep s1 s2)
    (h23 : TraceStep s2 s3) : TraceStep s1 s3 := by
  obtain ⟨d1, ht1, hr1, hn1, hd1⟩ := h12
  obtain ⟨d2, ht2, hr2, hn2, hd2⟩ := h23
  refine ⟨d1 ++ d2, ?_, ?_, ?_, ?_⟩
  · rw [ht2, ht1, List.append_assoc]
  · rw [hr2, hr1, visitedOf_append, List.reverse_append, List.append_assoc]
  · rw [visitedOf_append, List.nodup_append]
    refine ⟨hn1, hn2, ?_⟩
    intro n hd1' hd2'
    have hnot := hd2 n hd2'
    rw [hr1] at hnot
    exact hnot (by simp [hd1'])
  · intro n hn
    rw [visitedOf_append, List.mem_append] at hn
    rcases hn with h | h
    · exact hd1 n h
    · have hnot := hd2 n h
      rw [hr1] at hnot
      intro hmem
      exact hnot (by simp [hmem])

lemma traceStep_markVisited {name : String} {st : RunState}
    (h : name ∉ st.runTasks) : TraceStep st (markVisited name st) := by
  refine ⟨[Event.visit name], rfl, ?_, ?_, ?_⟩ <;> simp [markVisited, visitedOf, h]

lemma traceStep_addExec (c : String) (st : RunState) : TraceStep st (addExec c st) :=
  ⟨[Event.exec c], rfl, by simp [addExec, visitedOf], by simp [visitedOf],
    by simp [visitedOf]⟩

lemma traceStep_setEnvVar (k v : String) (st : RunState) :
    TraceStep st (setEnvVar k v st) :=
  ⟨[], by simp [setEnvVar], by simp [setEnvVar, visitedOf], by simp [visitedOf],
    by simp [visitedOf]⟩

lemma traceStep_cmdRecord (t : Task) (x output : String) (st : RunState) :
    TraceStep st
      (if t.Set = "" then addExec x st
       else setEnvVar t.Set output (addExec x st)) := by
  split
  · exact traceStep_addExec x st
  · exact traceStep_trans (traceStep_addExec x st)
      (traceStep_setEnvVar t.Set output (addExec x st))

lemma runCmds_traceStep (w : World) (name : String) (t : Task) :
    ∀ (cs : List String) (st : RunState) (r : Except TaskError Unit)
      (st' : RunState), runCmds w name t cs st = some (r, st') → TraceStep st st' := by
  intro cs
  induction cs with
  | nil =>
    intro st r st' h
    simp only [runCmds, Option.some.injEq, Prod.mk.injEq] at h
    exact h.2 ▸ traceStep_refl st
  | cons c cs ih =>
    intro st r st' h
    simp only [runCmds, handleVariables] at h
    split at h
    · simp only [Option.some.injEq, Prod.mk.injEq] at h
      exact h.2 ▸ traceStep_refl st
    · rename_i output heq
      exact traceStep_trans
        (traceStep_cmdRecord t (ReplaceVariables c t.Variables st.env) output st)
        (ih _ r st' h)

lemma runDepsWith_traceStep
    (run : String → RunState → Option (Except TaskError Unit × RunState))
    (hrun : ∀ n st r st', run n st = some (r, st') → TraceStep st st') :
    ∀ (ds : List String) (vars : List (String × String)) (st : RunState)
      (r : Except TaskError Unit) (st' : RunState),
      runDepsWith run ds vars st = some (r, st') → TraceStep st st' := by
  intro ds
  induction ds with
  | nil =>
    intro vars st r st' h
    simp only [runDepsWith, Option.some.injEq, Prod.mk.injEq] at h
    exact h.2 ▸ traceStep_refl st
  | cons d ds ih =>
    intro vars st r st' h
    simp only [runDepsWith] at h
    split at h
    · exact absurd h (by simp)
    · rename_i pst heq
      simp only [Option.some.injEq, Prod.mk.injEq] at h
      exact h.2 ▸ hrun _ _ _ _ heq
    · rename_i u pst heq
      exact traceStep_trans (hrun _ _ _ _ heq) (ih vars pst r st' h)

lemma runTask_traceStep :
    ∀ (fuel : Nat) (w : World) (Tasks : List (String × Task)) (name : String)
      (st : RunState) (r : Except TaskError Unit) (st' : RunState),
      RunTask w Tasks fuel name st = some (r, st') → TraceStep st st' := by
  intro fuel
  induction fuel with
  | zero =>
    intro w Tasks name st r st' h
    exact absurd h (by simp [RunTask])
  | succ fuel ih =>
    intro w Tasks name st r st' h
    by_cases hv : name ∈ st.runTasks
    · rw [runTask_visited hv] at h
      simp only [Option.some.injEq, Prod.mk.injEq] at h
      exact h.2 ▸ traceStep_refl st
    · rw [runTask_succ hv] at h
      split at h
      · simp only [Option.some.injEq, Prod.mk.injEq] at h
        exact h.2 ▸ traceStep_markVisited hv
      · rename_i t hl
        split at h
        · simp only [Option.some.injEq, Prod.mk.injEq] at h
          exact h.2 ▸ traceStep_markVisited hv
        · split at h
          · exact absurd h (by simp)
          · rename_i e st2 heq
            simp only [Option.some.injEq, Prod.mk.injEq] at h
            exact h.2 ▸ traceStep_trans (traceStep_markVisited hv)
              (runDepsWith_traceStep (RunTask w Tasks fuel)
                (fun n s r1 s1 hr => ih w Tasks n s r1 s1 hr)
                t.Deps t.Variables (markVisited name st) (Except.error e) st2 heq)
          · rename_i u st2 heq
            exact traceStep_trans (traceStep_markVisited hv)
              (traceStep_trans
                (runDepsWith_traceStep (RunTask w Tasks fuel)
                  (fun n s r1 s1 hr => ih w Tasks n s r1 s1 hr)
                  t.Deps t.Variables (markVisited name st) (Except.ok u) st2 heq)
                (runCmds_traceStep w name t t.Cmds st2 r st' h))

lemma traceStep_mono {s1 s2 : RunState} (h : TraceStep s1 s2) :
    ∀ x ∈ s1.runTasks, x ∈ s2.runTasks := by
  obtain ⟨d, -, hr, -, -⟩ := h
  intro x hx
  rw [hr]
  simp [hx]

lemma runTask_marks :
    ∀ (fuel : Nat) (w : World) (Tasks : List (String × Task)) (name : String)
      (st : RunState) (r : Except TaskError Unit) (st' : RunState),
      RunTask w Tasks (fuel + 1) name st = some (r, st') →
      name ∈ st'.runTasks := by
  intro fuel w Tasks name st r st' h
  by_cases hv : name ∈ st.runTasks
  · rw [runTask_visited hv] at h
    simp only [Option.some.injEq, Prod.mk.injEq] at h
    exact h.2 ▸ hv
  · have hmark : name ∈ (markVisited name st).runTasks :=
      List.mem_cons_self name st.runTasks
    rw [runTask_succ hv] at h
    split at h
    · simp only [Option.some.injEq, Prod.mk.injEq] at h
      exact h.2 ▸ hmark
    · rename_i t hl
      split at h
      · simp only [Option.some.injEq, Prod.mk.injEq] at h
        exact h.2 ▸ hmark
      · split at h
        · exact absurd h (by simp)
        · rename_i e st2 heq
          simp only [Option.some.injEq, Prod.mk.injEq] at h
          have hmem := traceStep_mono
            (runDepsWith_traceStep (RunTask w Tasks fuel)
              (fun n s r1 s1 hr => runTask_traceStep fuel w Tasks n s r1 s1 hr)
              t.Deps t.Variables (markVisited name st) (Except.error e) st2 heq)
            name hmark
          exact h.2 ▸ hmem
        · rename_i u st2 heq
          have hmem := traceStep_mono
            (runDepsWith_traceStep (RunTask w Tasks fuel)
              (fun n s r1 s1 hr => runTask_traceStep fuel w Tasks n s r1 s1 hr)
              t.Deps t.Variables (markVisited name st) (Except.ok u) st2 heq)
            name hmark
          exact traceStep_mono (runCmds_traceStep w name t t.Cmds st2 r st' h)
            name hmem

/-- C7: the visited set is process-wide and only grows: every name visited
before a `RunTask` call is still visited after it, the call's own name is
in the visited set afterwards, and therefore a second top-level call on
the same name in the same process run fails with the cyclic-dependency
error. -/
theorem runTasks_monotone_second_call_cyclic :
    (∀ (w : World) (Tasks : List (String × Task)) (fuel : Nat) (name : String)
        (st : RunState) (r : Except TaskError Unit) (st' : RunState),
        RunTask w Tasks fuel name st = some (r, st') →
        ∀ x ∈ st.runTasks, x ∈ st'.runTasks)
    ∧ (∀ (w : World) (Tasks : List (String × Task)) (fuel : Nat) (name : String)
        (st : RunState) (r : Except TaskError Unit) (st' : RunState),
        RunTask w Tasks (fuel + 1) name st = some (r, st') →
        name ∈ st'.runTasks
        ∧ ∀ fuel' : Nat,
            RunTask w Tasks (fuel' + 1) name st'
              = some (Except.error (TaskError.taskRunError name cyclicDepMsg), st')) := by
  constructor
  · intro w Tasks fuel name st r st' h
    exact traceStep_mono (runTask_traceStep fuel w Tasks name st r st' h)
  · intro w Tasks fuel name st r st' h
    have hm := runTask_marks fuel w Tasks name st r st' h
    exact ⟨hm, fun _ => runTask_visited hm⟩

/-- Closed instance of C7: after running A once from the fresh state, a
second top-level call on A fails with the cyclic-dependency error. -/
theorem runTasks_monotone_second_call_cyclic_witness :
    "A" ∈ (markVisited "A" st0).runTasks
    ∧ RunTask wTriv regA 1 "A" (markVisited "A" st0)
        = some (Except.error (TaskError.taskRunError "A" cyclicDepMsg),
                markVisited "A" st0) := by
  have h := runTasks_monotone_second_call_cyclic.2 wTriv regA 0 "A" st0
    (Except.ok ()) (markVisited "A" st0) rfl
  exact ⟨h.1, h.2 0⟩

lemma runCmds_ordered (w : World) (name : String) (t : Task) :
    ∀ (cs : List String) (st st' : RunState),
      runCmds w name t cs st = some (Except.ok (), st') →
      ∃ envs : List (List (String × String)),
        envs.length = cs.length ∧
        st'.trace = st.trace
          ++ (cs.zip envs).map
              (fun p => Event.exec (ReplaceVariables p.1 t.Variables p.2)) := by
  intro cs
  induction cs with
  | nil =>
    intro st st' h
    simp only [runCmds, Option.some.injEq, Prod.mk.injEq] at h
    exact ⟨[], rfl, by rw [← h.2]; simp⟩
  | cons c cs ih =>
    intro st st' h
    simp only [runCmds, handleVariables] at h
    split at h
    · exact absurd h (by simp)
    · rename_i output heq
      obtain ⟨envs, hlen, htr⟩ := ih _ _ h
      have htrace : (if t.Set = ""
            then addExec (ReplaceVariables c t.Variables st.env) st
            else setEnvVar t.Set output
              (addExec (ReplaceVariables c t.Variables st.env) st)).trace
          = st.trace ++ [Event.exec (ReplaceVariables c t.Variables st.env)] := by
        split <;> rfl
      refine ⟨st.env :: envs, by simp [hlen], ?_⟩
      rw [htr, htrace]
      simp [List.zip_cons_cons]

/-- C1 (amended): the visit events of any run from the fresh state are
duplicate-free — each dependency is visited at most once per top-level
invocation, and the visited set is exactly the set of visited names;
every run task that returns success executed exactly one command per
declared command template, in declared order, each the substitution of
its template under the variables in effect at that point, placed after
the task's visit and dependency events; a name reached a second time —
such as a dependency shared by two branches — makes the run fail with the
cyclic-dependency error instead. -/
theorem runTask_visits_at_most_once_and_ordered :
    (∀ (w : World) (Tasks : List (String × Task)) (fuel : Nat) (name : String)
        (r : Except TaskError Unit) (st' : RunState),
        RunTask w Tasks fuel name st0 = some (r, st') →
        (visitedOf st'.trace).Nodup
        ∧ st'.runTasks = (visitedOf st'.trace).reverse)
    ∧ (∀ (w : World) (Tasks : List (String × Task)) (fuel : Nat) (name : String)
        (st : RunState) (t : Task),
        name ∉ st.runTasks → Tasks.lookup name = some t →
        isTaskUpToDate w.fs t = false →
        ∀ st' : RunState,
          RunTask w Tasks (fuel + 1) name st = some (Except.ok (), st') →
          ∃ (depTrace : List Event) (envs : List (List (String × String))),
            envs.length = t.Cmds.length ∧
            st'.trace = st.trace
              ++ Event.visit name
                :: (depTrace
                  ++ (t.Cmds.zip envs).map
                      (fun p => Event.exec (ReplaceVariables p.1 t.Variables p.2))))
    ∧ (∀ (w : World) (Tasks : List (String × Task)) (fuel : Nat) (name : String)
        (st : RunState), name ∈ st.runTasks →
        RunTask w Tasks (fuel + 1) name st
          = some (Except.error (TaskError.taskRunError name cyclicDepMsg), st)) := by
  refine ⟨?_, ?_, ?_⟩
  · intro w Tasks fuel name r st' h
    obtain ⟨d, ht, hr, hn, -⟩ := runTask_traceStep fuel w Tasks name st0 r st' h
    have ht' : st'.trace = d := by rw [ht]; rfl
    have hr' : st'.runTasks = (visitedOf d).reverse := by rw [hr]; simp [st0]
    rw [ht', hr']
    exact ⟨hn, rfl⟩
  · intro w Tasks fuel name st t hv hl hu st' h
    rw [runTask_stale hv hl hu] at h
    split at h
    · exact absurd h (by simp)
    · exact absurd h (by simp)
    · rename_i u st2 heq
      obtain ⟨d, hdt, -, -, -⟩ := runDepsWith_traceStep (RunTask w Tasks fuel)
        (fun n s r1 s1 hr => runTask_traceStep fuel w Tasks n s r1 s1 hr)
        t.Deps t.Variables (markVisited name st) (Except.ok u) st2 heq
      obtain ⟨envs, hlen, htr⟩ := runCmds_ordered w name t t.Cmds st2 st' h
      refine ⟨d, envs, hlen, ?_⟩
      rw [htr, hdt]
      simp [markVisited]
  · intro w Tasks fuel name st hv
    exact runTask_visited hv

/-- C1 counterexample: the diamond registry (A depends on B and C, both of
which depend on D) has no dependency cycle, yet running A from the fresh
state fails with the cyclic-dependency error at D, the dependency reached
along both branches, after D's command already ran once. -/
theorem runTask_diamond_counterexample :
    (RunTask wTriv diamondReg 5 "A" st0).map (fun p => (p.1, execsOf p.2.trace))
      = some (Except.error (TaskError.taskRunError "D" cyclicDepMsg), ["d"]) := rfl

/-- Closed instance of C1's amended claim: duplicate-free visits after
running A, and the task `top` — which has a dependency and a capture
variable — executed its commands `c1` then `c2` in declared order after
its visit and dependency events. -/
theorem runTask_visits_at_most_once_witness :
    ((visitedOf (markVisited "A" st0).trace).Nodup
      ∧ (markVisited "A" st0).runTasks
          = (visitedOf (markVisited "A" st0).trace).reverse)
    ∧ ∃ (depTrace : List Event) (envs : List (List (String × String))),
        envs.length = topTask.Cmds.length ∧
        (RunState.mk ["leaf", "top"] [("S", ""), ("S", "")]
            [Event.visit "top", Event.visit "leaf",
             Event.exec "c1", Event.exec "c2"]).trace
          = st0.trace
            ++ Event.visit "top"
              :: (depTrace
                ++ (topTask.Cmds.zip envs).map
                    (fun p => Event.exec (ReplaceVariables p.1 topTask.Variables p.2))) :=
  And.intro
    (runTask_visits_at_most_once_and_ordered.1 wTriv regA 1 "A" (Except.ok ())
      (markVisited "A" st0) rfl)
    (runTask_visits_at_most_once_and_ordered.2.1 wTriv regTop 1 "top" st0 topTask
      (by decide) rfl rfl
      (RunState.mk ["leaf", "top"] [("S", ""), ("S", "")]
        [Event.visit "top", Event.visit "leaf", Event.exec "c1", Event.exec "c2"])
      rfl)

lemma foldl_max_lt (f : String → Nat) (l : List String) (a b : Nat) :
    List.foldl (fun m g => max m (f g)) a l < b ↔ a < b ∧ ∀ x ∈ l, f x < b := by
  induction l generalizing a with
  | nil => simp
  | cons x xs ih =>
    simp only [List.foldl_cons, List.mem_cons]
    rw [ih, Nat.max_lt]
    constructor
    · rintro ⟨⟨h1, h2⟩, h3⟩
      exact ⟨h1, fun y hy => hy.elim (fun he => he ▸ h2) (h3 y)⟩
    · rintro ⟨h1, h2⟩
      exact ⟨⟨h1, h2 x (Or.inl rfl)⟩, fun y hy => h2 y (Or.inr hy)⟩

lemma lt_foldl_min (f : String → Nat) (l : List String) (a b : Nat) :
    b < List.foldl (fun m g => min m (f g)) a l ↔ b < a ∧ ∀ x ∈ l, b < f x := by
  induction l generalizing a with
  | nil => simp
  | cons x xs ih =>
    simp only [List.foldl_cons, List.mem_cons]
    rw [ih, Nat.lt_min]
    constructor
    · rintro ⟨⟨h1, h2⟩, h3⟩
      exact ⟨h1, fun y hy => hy.elim (fun he => he ▸ h2) (h3 y)⟩
    · rintro ⟨h1, h2⟩
      exact ⟨⟨h1, h2 x (Or.inl rfl)⟩, fun y hy => h2 y (Or.inr hy)⟩

lemma foldMax_lt_foldMin (f : String → Nat) (s : String) (ss : List String)
    (g : String) (gs : List String) :
    (List.foldl (fun m x => max m (f x)) (f s) ss
        < List.foldl (fun m x => min m (f x)) (f g) gs)
      ↔ ∀ x ∈ s :: ss, ∀ y ∈ g :: gs, f x < f y := by
  simp only [lt_foldl_min, foldl_max_lt, List.mem_cons]
  constructor
  · rintro ⟨⟨h1, h2⟩, h3⟩ x hx y hy
    rcases hx with rfl | hx' <;> rcases hy with rfl | hy'
    · exact h1
    · exact (h3 y hy').1
    · exact h2 x hx'
    · exact (h3 y hy').2 x hx'
  · intro h
    exact ⟨⟨h s (Or.inl rfl) g (Or.inl rfl),
        fun x hx => h x (Or.inr hx) g (Or.inl rfl)⟩,
      fun y hy => ⟨h s (Or.inl rfl) y (Or.inr hy),
        fun x hx => h x (Or.inr hx) y (Or.inr hy)⟩⟩

/-- C3: the freshness check is true exactly when both pattern lists are
non-empty, both glob expansions succeed and match at least one file, and
every matched generated file is strictly newer than every matched source
file — equivalently, the minimum output time is strictly after the maximum
source time; ties, empty pattern lists, glob errors and unmatched patterns
all give false. -/
theorem isTaskUpToDate_iff :
    ∀ (fs : FS) (t : Task),
      isTaskUpToDate fs t = true ↔
        t.Sources ≠ [] ∧ t.Generates ≠ [] ∧
        ∃ sfiles gfiles : List String,
          globAll fs t.Sources = Except.ok sfiles ∧
          globAll fs t.Generates = Except.ok gfiles ∧
          sfiles ≠ [] ∧ gfiles ≠ [] ∧
          ∀ s ∈ sfiles, ∀ g ∈ gfiles, fs.modTime s < fs.modTime g := by
  intro fs t
  by_cases hS : t.Sources = []
  · simp [isTaskUpToDate, hS]
  · by_cases hG : t.Generates = []
    · simp [isTaskUpToDate, hG]
    · have hcond : ¬ (t.Sources.length = 0 ∨ t.Generates.length = 0) := by
        simp [List.length_eq_zero, hS, hG]
      simp only [isTaskUpToDate, getPatternsMaxTime, getPatternsMinTime, if_neg hcond]
      cases hgs : globAll fs t.Sources with
      | error e => simp [hS, hG]
      | ok sfiles =>
        cases hgg : globAll fs t.Generates with
        | error e =>
          cases sfiles with
          | nil => simp [hS, hG]
          | cons s ss => simp [hS, hG]
        | ok gfiles =>
          cases sfiles with
          | nil => simp [hS, hG]
          | cons s ss =>
            cases gfiles with
            | nil => simp [hS, hG]
            | cons g gs => simp [hS, hG, foldMax_lt_foldMin]

end TaskRun
